import Mathlib

/-!
# CrisisCtrl matcher: geodesic distance and nearest-unit selection

A shallow embedding of `src/backend/matcher/matcher.cpp`, in two readings of
`double`.

## Reading over the reals

* `double` arithmetic is read over the real numbers: `M_PI` is `Real.pi`,
  `sin`, `cos`, `sqrt` are the real functions, and `atan2` is the two-argument
  arctangent of the C library, written out by cases below. Rounding, overflow
  and NaN are not part of this reading. `Real.sqrt` is `0` on negative numbers
  where the C function has no real value; over the reals `getDistance` applies
  it to `a` and `1 - a` only, which are never negative (`haversineA_mem`).
* `numeric_limits<double>::max()` is the real number `2 ^ 1024 - 2 ^ 971`.
* A roster entry `pair<string, pair<double, double>>` is `String × (ℝ × ℝ)`.
* The loop of `main` is a left fold of the loop body over the roster, the two
  mutable locals `bestUnit` and `minScore` being the folded state.

This reading carries the statements on the mathematics of the formula and on the
selection made by the loop (`getDistance`, `matchStep`, `matchLoop`, `main`).

## Reading with the special values of `double`

`Dbl`, `getDistanceD`, `matchStepD`, `matchLoopD` and `mainD` are the same lines of
code with infinities and NaN kept: overflow, the NaN of `sin`, `cos` and `sqrt`,
and comparisons that are false on NaN. `M_PI` is the value of the `double`
constant, which is below `π`. This reading carries the statements on inputs that
overflow, on NaN scores and on longitudes shifted by 360 degrees.
-/

set_option linter.unusedVariables false

namespace CrisisCtrl

/-! ## Definitions -/

/-- Two-argument arctangent of the C library (`atan2 (y, x)`), over the reals:
the angle in `(-π, π]` of the point `(x, y)`, and `0` at the origin. -/
noncomputable def atan2 (y x : ℝ) : ℝ :=
  if 0 < x then Real.arctan (y / x)
  else if x < 0 then
    (if 0 ≤ y then Real.arctan (y / x) + Real.pi else Real.arctan (y / x) - Real.pi)
  else if 0 < y then Real.pi / 2
  else if y < 0 then -(Real.pi / 2)
  else 0

/-- The local `a` of `getDistance` (matcher.cpp, lines 13-17): the squared
half-chord length of the two points. -/
noncomputable def haversineA (lat1 lon1 lat2 lon2 : ℝ) : ℝ :=
  let dLat := (lat2 - lat1) * Real.pi / 180.0
  let dLon := (lon2 - lon1) * Real.pi / 180.0
  Real.sin (dLat / 2) * Real.sin (dLat / 2) +
    Real.cos (lat1 * Real.pi / 180.0) * Real.cos (lat2 * Real.pi / 180.0) *
    Real.sin (dLon / 2) * Real.sin (dLon / 2)

/-- The function `getDistance` of matcher.cpp, lines 11-20. -/
noncomputable def getDistance (lat1 lon1 lat2 lon2 : ℝ) : ℝ :=
  let R : ℝ := 6371.0
  let dLat := (lat2 - lat1) * Real.pi / 180.0
  let dLon := (lon2 - lon1) * Real.pi / 180.0
  let a := Real.sin (dLat / 2) * Real.sin (dLat / 2) +
    Real.cos (lat1 * Real.pi / 180.0) * Real.cos (lat2 * Real.pi / 180.0) *
    Real.sin (dLon / 2) * Real.sin (dLon / 2)
  let c := 2 * atan2 (Real.sqrt a) (Real.sqrt (1 - a))
  R * c

/-- A roster entry: `{ID, {Lat, Lng}}`. -/
abbrev RosterUnit := String × (ℝ × ℝ)

/-- The value of `numeric_limits<double>::max()`, the largest finite double. -/
noncomputable def DBL_MAX : ℝ := 2 ^ 1024 - 2 ^ 971

/-- The two locals the matching loop updates. -/
structure MatchState where
  bestUnit : String
  minScore : ℝ

/-- The body of the matching loop (matcher.cpp, lines 47-56) for one roster entry. -/
noncomputable def matchStep (incLat incLon : ℝ) (severity : ℤ) (st : MatchState)
    (unit : RosterUnit) : MatchState :=
  let dist := getDistance incLat incLon unit.2.1 unit.2.2
  let score := dist
  if score < st.minScore then { bestUnit := unit.1, minScore := score } else st

/-- The matching loop of `main` (matcher.cpp, lines 42-57), the roster taken as a
parameter: the state after the scan. -/
noncomputable def matchLoop (incLat incLon : ℝ) (severity : ℤ)
    (units : List RosterUnit) : MatchState :=
  units.foldl (matchStep incLat incLon severity)
    { bestUnit := "None", minScore := DBL_MAX }

/-- The built-in roster of `main` (matcher.cpp, lines 35-40). -/
noncomputable def units : List RosterUnit :=
  [("Unit_Alpha", (40.715, -74.008)),
   ("Unit_Bravo", (40.725, -74.000)),
   ("Unit_Charlie", (40.700, -74.020)),
   ("Unit_Delta", (34.052, -118.243))]

/-- The function `main` of matcher.cpp: the lines written to standard output,
given the result of reading `LAT LNG SEVERITY` (`none` when the read fails). -/
noncomputable def main (input : Option (ℝ × ℝ × ℤ)) : List String :=
  match input with
  | some (incLat, incLon, severity) => [(matchLoop incLat incLon severity units).bestUnit]
  | none => []

/-- The great-circle distance in the words of the specification: the radius
`6371.0` times the central angle given by the spherical law of cosines, the
angles being the inputs converted from degrees to radians. -/
noncomputable def greatCircleSpec (lat1 lon1 lat2 lon2 : ℝ) : ℝ :=
  let φ1 := lat1 * Real.pi / 180
  let φ2 := lat2 * Real.pi / 180
  let Δl := (lon2 - lon1) * Real.pi / 180
  6371.0 * Real.arccos (Real.sin φ1 * Real.sin φ2 + Real.cos φ1 * Real.cos φ2 * Real.cos Δl)

/-! ## The distance function as a central angle -/

/-- The cosine of the central angle between two points given in radians. -/
noncomputable def cosAngle (p1 p2 dl : ℝ) : ℝ :=
  Real.sin p1 * Real.sin p2 + Real.cos p1 * Real.cos p2 * Real.cos dl

/-! ## The same code with the special values of `double`

The definitions above read `double` as `ℝ`. The definitions below keep the special
values of IEEE arithmetic: a `double` is a finite number, an infinity or NaN; an
arithmetic result whose magnitude reaches `2 ^ 1024 - 2 ^ 970` becomes an infinity;
the sine and cosine of an infinity, the square root of a negative number and every
operation on NaN give NaN; a comparison with NaN is false. `M_PI` is the value of
the `double` constant. A finite result is kept exact: rounding to 53 bits,
underflow and the sign of zero are left out. -/

/-- A `double`: a finite number, read as the real number it denotes, one of the two
infinities, or NaN. -/
inductive Dbl where
  | fin (x : ℝ)
  | pinf
  | ninf
  | nan

namespace Dbl

/-- The least magnitude that rounds to an infinity. -/
noncomputable def overflowAt : ℝ := 2 ^ 1024 - 2 ^ 970

/-- The `double` of an exact result: an infinity beyond the finite range. -/
noncomputable def ofReal (x : ℝ) : Dbl :=
  if overflowAt ≤ x then pinf else if x ≤ -overflowAt then ninf else fin x

/-- Unary minus. -/
noncomputable def neg : Dbl → Dbl
  | fin x => fin (-x)
  | pinf => ninf
  | ninf => pinf
  | nan => nan

/-- Addition of two `double`s. -/
noncomputable def add : Dbl → Dbl → Dbl
  | nan, _ => nan
  | _, nan => nan
  | fin x, fin y => ofReal (x + y)
  | fin _, pinf => pinf
  | fin _, ninf => ninf
  | pinf, fin _ => pinf
  | ninf, fin _ => ninf
  | pinf, pinf => pinf
  | ninf, ninf => ninf
  | pinf, ninf => nan
  | ninf, pinf => nan

/-- Subtraction: `x - y` is `x + (-y)`. -/
noncomputable def sub (a b : Dbl) : Dbl := add a (neg b)

/-- Multiplication of two `double`s. -/
noncomputable def mul : Dbl → Dbl → Dbl
  | nan, _ => nan
  | _, nan => nan
  | fin x, fin y => ofReal (x * y)
  | fin x, pinf => if x = 0 then nan else if 0 < x then pinf else ninf
  | fin x, ninf => if x = 0 then nan else if 0 < x then ninf else pinf
  | pinf, fin y => if y = 0 then nan else if 0 < y then pinf else ninf
  | ninf, fin y => if y = 0 then nan else if 0 < y then ninf else pinf
  | pinf, pinf => pinf
  | ninf, ninf => pinf
  | pinf, ninf => ninf
  | ninf, pinf => ninf

/-- Division of two `double`s (a zero divisor is taken as `+0`). -/
noncomputable def div : Dbl → Dbl → Dbl
  | nan, _ => nan
  | _, nan => nan
  | fin x, fin y =>
    if y = 0 then (if x = 0 then nan else if 0 < x then pinf else ninf) else ofReal (x / y)
  | fin _, pinf => fin 0
  | fin _, ninf => fin 0
  | pinf, fin y => if 0 ≤ y then pinf else ninf
  | ninf, fin y => if 0 ≤ y then ninf else pinf
  | pinf, pinf => nan
  | ninf, ninf => nan
  | pinf, ninf => nan
  | ninf, pinf => nan

/-- The library function `sin`. -/
noncomputable def sin : Dbl → Dbl
  | fin x => fin (Real.sin x)
  | _ => nan

/-- The library function `cos`. -/
noncomputable def cos : Dbl → Dbl
  | fin x => fin (Real.cos x)
  | _ => nan

/-- The library function `sqrt`. -/
noncomputable def sqrt : Dbl → Dbl
  | fin x => if x < 0 then nan else fin (Real.sqrt x)
  | pinf => pinf
  | _ => nan

/-- The library function `atan2 (y, x)`. -/
noncomputable def atan2 : Dbl → Dbl → Dbl
  | nan, _ => nan
  | _, nan => nan
  | fin y, fin x => fin (CrisisCtrl.atan2 y x)
  | fin _, pinf => fin 0
  | fin y, ninf => if 0 ≤ y then fin Real.pi else fin (-Real.pi)
  | pinf, fin _ => fin (Real.pi / 2)
  | ninf, fin _ => fin (-(Real.pi / 2))
  | pinf, pinf => fin (Real.pi / 4)
  | pinf, ninf => fin (3 * Real.pi / 4)
  | ninf, pinf => fin (-(Real.pi / 4))
  | ninf, ninf => fin (-(3 * Real.pi / 4))

/-- The comparison `x < y` of two `double`s: false as soon as one is NaN. -/
def lt : Dbl → Dbl → Prop
  | fin x, fin y => x < y
  | fin _, pinf => True
  | ninf, fin _ => True
  | ninf, pinf => True
  | _, _ => False

noncomputable instance : Add Dbl := ⟨add⟩

noncomputable instance : Sub Dbl := ⟨sub⟩

noncomputable instance : Mul Dbl := ⟨mul⟩

noncomputable instance : Div Dbl := ⟨div⟩

instance : LT Dbl := ⟨lt⟩

noncomputable instance decLt (a b : Dbl) : Decidable (a < b) := Classical.propDecidable _

end Dbl

/-- The value of the `double` constant `M_PI`, `0x1.921fb54442d18p+1`. -/
noncomputable def M_PI : ℝ := 884279719003555 / 2 ^ 48

/-- The local `a` of `getDistance` (matcher.cpp, lines 13-17) in `double`s. -/
noncomputable def haversineAD (lat1 lon1 lat2 lon2 : ℝ) : Dbl :=
  let dLat := (Dbl.fin lat2 - Dbl.fin lat1) * Dbl.fin M_PI / Dbl.fin 180.0
  let dLon := (Dbl.fin lon2 - Dbl.fin lon1) * Dbl.fin M_PI / Dbl.fin 180.0
  Dbl.sin (dLat / Dbl.fin 2) * Dbl.sin (dLat / Dbl.fin 2) +
    Dbl.cos (Dbl.fin lat1 * Dbl.fin M_PI / Dbl.fin 180.0) *
      Dbl.cos (Dbl.fin lat2 * Dbl.fin M_PI / Dbl.fin 180.0) *
    Dbl.sin (dLon / Dbl.fin 2) * Dbl.sin (dLon / Dbl.fin 2)

/-- The last two lines of `getDistance` (matcher.cpp, lines 18-19) in `double`s, as
a function of the local `a`. -/
noncomputable def distanceFromA (a : Dbl) : Dbl :=
  let R : Dbl := Dbl.fin 6371.0
  let c := Dbl.fin 2 * Dbl.atan2 (Dbl.sqrt a) (Dbl.sqrt (Dbl.fin 1 - a))
  R * c

/-- The function `getDistance` of matcher.cpp, lines 11-20, in `double`s. -/
noncomputable def getDistanceD (lat1 lon1 lat2 lon2 : ℝ) : Dbl :=
  let R : Dbl := Dbl.fin 6371.0
  let dLat := (Dbl.fin lat2 - Dbl.fin lat1) * Dbl.fin M_PI / Dbl.fin 180.0
  let dLon := (Dbl.fin lon2 - Dbl.fin lon1) * Dbl.fin M_PI / Dbl.fin 180.0
  let a := Dbl.sin (dLat / Dbl.fin 2) * Dbl.sin (dLat / Dbl.fin 2) +
    Dbl.cos (Dbl.fin lat1 * Dbl.fin M_PI / Dbl.fin 180.0) *
      Dbl.cos (Dbl.fin lat2 * Dbl.fin M_PI / Dbl.fin 180.0) *
    Dbl.sin (dLon / Dbl.fin 2) * Dbl.sin (dLon / Dbl.fin 2)
  let c := Dbl.fin 2 * Dbl.atan2 (Dbl.sqrt a) (Dbl.sqrt (Dbl.fin 1 - a))
  R * c

theorem cosAngle_le_one (p1 p2 dl : ℝ) : cosAngle p1 p2 dl ≤ 1 := by
  unfold cosAngle
  have h1 := Real.sin_sq_add_cos_sq p1
  have h2 := Real.sin_sq_add_cos_sq p2
  have hk1 := Real.cos_le_one dl
  have hk2 := Real.neg_one_le_cos dl
  nlinarith [sq_nonneg (Real.sin p1 - Real.sin p2),
    mul_nonneg (sub_nonneg.2 hk1) (sq_nonneg (Real.cos p1 + Real.cos p2)),
    mul_nonneg (by linarith : (0 : ℝ) ≤ 1 + Real.cos dl) (sq_nonneg (Real.cos p1 - Real.cos p2))]

theorem neg_one_le_cosAngle (p1 p2 dl : ℝ) : -1 ≤ cosAngle p1 p2 dl := by
  unfold cosAngle
  have h1 := Real.sin_sq_add_cos_sq p1
  have h2 := Real.sin_sq_add_cos_sq p2
  have hk1 := Real.cos_le_one dl
  have hk2 := Real.neg_one_le_cos dl
  nlinarith [sq_nonneg (Real.sin p1 + Real.sin p2),
    mul_nonneg (sub_nonneg.2 hk1) (sq_nonneg (Real.cos p1 - Real.cos p2)),
    mul_nonneg (by linarith : (0 : ℝ) ≤ 1 + Real.cos dl) (sq_nonneg (Real.cos p1 + Real.cos p2))]

/-- The local `a` is half of one minus the cosine of the central angle. -/
theorem haversineA_eq (lat1 lon1 lat2 lon2 : ℝ) :
    haversineA lat1 lon1 lat2 lon2 =
      (1 - cosAngle (lat1 * Real.pi / 180) (lat2 * Real.pi / 180)
        ((lon2 - lon1) * Real.pi / 180)) / 2 := by
  have e180 : (180.0 : ℝ) = 180 := by norm_num
  simp only [haversineA, cosAngle, e180]
  have hA : ∀ x : ℝ, Real.sin (x / 2) * Real.sin (x / 2) = (1 - Real.cos x) / 2 := by
    intro x
    have h := Real.cos_two_mul (x / 2)
    rw [show 2 * (x / 2) = x by ring] at h
    nlinarith [Real.sin_sq_add_cos_sq (x / 2)]
  have hd : (lat2 - lat1) * Real.pi / 180 = lat2 * Real.pi / 180 - lat1 * Real.pi / 180 := by
    ring
  rw [mul_assoc (Real.cos (lat1 * Real.pi / 180) * Real.cos (lat2 * Real.pi / 180)), hA, hA,
    hd, Real.cos_sub]
  ring

/-- On the quarter turn `[0, π/2]` the two-argument arctangent recovers the angle. -/
theorem atan2_sin_cos (t : ℝ) (h0 : 0 ≤ t) (h1 : t ≤ Real.pi / 2) :
    atan2 (Real.sin t) (Real.cos t) = t := by
  unfold atan2
  rcases lt_or_eq_of_le h1 with hlt | heq
  · have hc : 0 < Real.cos t := Real.cos_pos_of_mem_Ioo ⟨by linarith [Real.pi_pos], hlt⟩
    rw [if_pos hc, ← Real.tan_eq_sin_div_cos]
    exact Real.arctan_tan (by linarith [Real.pi_pos]) hlt
  · subst heq
    simp [Real.pi_pos]

/-- The local `a` lies in `[0, 1]` for all inputs, so both square roots of
`getDistance` are taken of non-negative numbers. -/
theorem haversineA_mem (lat1 lon1 lat2 lon2 : ℝ) :
    0 ≤ haversineA lat1 lon1 lat2 lon2 ∧ haversineA lat1 lon1 lat2 lon2 ≤ 1 := by
  rw [haversineA_eq]
  have h1 := cosAngle_le_one (lat1 * Real.pi / 180) (lat2 * Real.pi / 180)
    ((lon2 - lon1) * Real.pi / 180)
  have h2 := neg_one_le_cosAngle (lat1 * Real.pi / 180) (lat2 * Real.pi / 180)
    ((lon2 - lon1) * Real.pi / 180)
  constructor <;> linarith

/-- The function `getDistance` in terms of its local `a`. -/
theorem getDistance_eq_haversineA (lat1 lon1 lat2 lon2 : ℝ) :
    getDistance lat1 lon1 lat2 lon2 =
      6371 * (2 * atan2 (Real.sqrt (haversineA lat1 lon1 lat2 lon2))
        (Real.sqrt (1 - haversineA lat1 lon1 lat2 lon2))) := by
  have e : (6371.0 : ℝ) = 6371 := by norm_num
  simp only [getDistance, haversineA, e]

/-- The distance is the radius times the central angle of the two points. -/
theorem getDistance_eq_arccos (lat1 lon1 lat2 lon2 : ℝ) :
    getDistance lat1 lon1 lat2 lon2 =
      6371 * Real.arccos (cosAngle (lat1 * Real.pi / 180) (lat2 * Real.pi / 180)
        ((lon2 - lon1) * Real.pi / 180)) := by
  rw [getDistance_eq_haversineA, haversineA_eq]
  generalize hd : cosAngle (lat1 * Real.pi / 180) (lat2 * Real.pi / 180)
    ((lon2 - lon1) * Real.pi / 180) = d
  have hd1 : d ≤ 1 := hd ▸ cosAngle_le_one _ _ _
  have hd2 : -1 ≤ d := hd ▸ neg_one_le_cosAngle _ _ _
  have hcos : Real.cos (Real.arccos d) = d := Real.cos_arccos hd2 hd1
  have h0 : 0 ≤ Real.arccos d / 2 := by linarith [Real.arccos_nonneg d]
  have hpi : Real.arccos d / 2 ≤ Real.pi / 2 := by linarith [Real.arccos_le_pi d]
  have h2 := Real.cos_two_mul (Real.arccos d / 2)
  rw [show 2 * (Real.arccos d / 2) = Real.arccos d by ring, hcos] at h2
  have hsc := Real.sin_sq_add_cos_sq (Real.arccos d / 2)
  have hs : Real.sqrt ((1 - d) / 2) = Real.sin (Real.arccos d / 2) := by
    have hsq : (1 - d) / 2 = Real.sin (Real.arccos d / 2) ^ 2 := by linarith
    rw [hsq]
    exact Real.sqrt_sq (Real.sin_nonneg_of_nonneg_of_le_pi h0 (by linarith [Real.pi_pos]))
  have hc : Real.sqrt (1 - (1 - d) / 2) = Real.cos (Real.arccos d / 2) := by
    have hsq : 1 - (1 - d) / 2 = Real.cos (Real.arccos d / 2) ^ 2 := by linarith
    rw [hsq]
    exact Real.sqrt_sq (Real.cos_nonneg_of_neg_pi_div_two_le_of_le
      (by linarith [Real.pi_pos]) hpi)
  rw [hs, hc, atan2_sin_cos _ h0 hpi]
  ring

/-- The code computes what the specification calls the great-circle distance. -/
theorem getDistance_eq_greatCircleSpec (lat1 lon1 lat2 lon2 : ℝ) :
    getDistance lat1 lon1 lat2 lon2 = greatCircleSpec lat1 lon1 lat2 lon2 := by
  have e : (6371.0 : ℝ) = 6371 := by norm_num
  rw [getDistance_eq_arccos]
  simp only [greatCircleSpec, cosAngle, e]

theorem getDistance_nonneg (lat1 lon1 lat2 lon2 : ℝ) :
    0 ≤ getDistance lat1 lon1 lat2 lon2 := by
  rw [getDistance_eq_arccos]
  exact mul_nonneg (by norm_num) (Real.arccos_nonneg _)

theorem getDistance_le (lat1 lon1 lat2 lon2 : ℝ) :
    getDistance lat1 lon1 lat2 lon2 ≤ 6371 * Real.pi := by
  rw [getDistance_eq_arccos]
  exact mul_le_mul_of_nonneg_left (Real.arccos_le_pi _) (by norm_num)

theorem getDistance_lt_DBL_MAX (lat1 lon1 lat2 lon2 : ℝ) :
    getDistance lat1 lon1 lat2 lon2 < DBL_MAX := by
  have h := getDistance_le lat1 lon1 lat2 lon2
  have hpi := Real.pi_lt_four
  have hbig : (6371 : ℝ) * 4 < DBL_MAX := by
    unfold DBL_MAX
    norm_num
  nlinarith

theorem getDistance_comm (lat1 lon1 lat2 lon2 : ℝ) :
    getDistance lat1 lon1 lat2 lon2 = getDistance lat2 lon2 lat1 lon1 := by
  rw [getDistance_eq_arccos, getDistance_eq_arccos]
  congr 1
  congr 1
  unfold cosAngle
  rw [show (lon1 - lon2) * Real.pi / 180 = -((lon2 - lon1) * Real.pi / 180) by ring,
    Real.cos_neg]
  ring

theorem getDistance_self (lat lon : ℝ) : getDistance lat lon lat lon = 0 := by
  rw [getDistance_eq_arccos]
  have h : cosAngle (lat * Real.pi / 180) (lat * Real.pi / 180)
      ((lon - lon) * Real.pi / 180) = 1 := by
    unfold cosAngle
    simp only [sub_self, zero_mul, zero_div, Real.cos_zero, mul_one]
    nlinarith [Real.sin_sq_add_cos_sq (lat * Real.pi / 180)]
  rw [h, Real.arccos_one, mul_zero]

/-! ## The matching loop -/

theorem matchStep_of_lt (incLat incLon : ℝ) (severity : ℤ) (st : MatchState) (u : RosterUnit)
    (h : getDistance incLat incLon u.2.1 u.2.2 < st.minScore) :
    matchStep incLat incLon severity st u =
      { bestUnit := u.1, minScore := getDistance incLat incLon u.2.1 u.2.2 } := by
  simp only [matchStep, if_pos h]

theorem matchStep_of_not_lt (incLat incLon : ℝ) (severity : ℤ) (st : MatchState)
    (u : RosterUnit) (h : ¬ getDistance incLat incLon u.2.1 u.2.2 < st.minScore) :
    matchStep incLat incLon severity st u = st := by
  simp only [matchStep, if_neg h]

/-- Invariant of the scan started in any state `st`: either no entry beats
`st.minScore` and the state is unchanged, or the roster splits around a winner `u`
that beats `st.minScore`, is strictly better than everything before it and at
least as good as everything after it. -/
theorem foldl_matchStep_split (incLat incLon : ℝ) (severity : ℤ) (us : List RosterUnit) :
    ∀ st : MatchState,
      (us.foldl (matchStep incLat incLon severity) st = st ∧
        ∀ v ∈ us, st.minScore ≤ getDistance incLat incLon v.2.1 v.2.2) ∨
      (∃ pre u post, us = pre ++ u :: post ∧
        us.foldl (matchStep incLat incLon severity) st =
          { bestUnit := u.1, minScore := getDistance incLat incLon u.2.1 u.2.2 } ∧
        getDistance incLat incLon u.2.1 u.2.2 < st.minScore ∧
        (∀ v ∈ pre, getDistance incLat incLon u.2.1 u.2.2 <
          getDistance incLat incLon v.2.1 v.2.2) ∧
        (∀ v ∈ post, getDistance incLat incLon u.2.1 u.2.2 ≤
          getDistance incLat incLon v.2.1 v.2.2)) := by
  induction us with
  | nil => intro st; left; simp
  | cons w ws ih =>
    intro st
    rw [List.foldl_cons]
    by_cases hw : getDistance incLat incLon w.2.1 w.2.2 < st.minScore
    · rw [matchStep_of_lt _ _ _ _ _ hw]
      right
      rcases ih { bestUnit := w.1, minScore := getDistance incLat incLon w.2.1 w.2.2 } with
        ⟨hst, hall⟩ | ⟨pre, u, post, hsplit, hres, hlt, hpre, hpost⟩
      · exact ⟨[], w, ws, rfl, hst, hw, by simp, hall⟩
      · refine ⟨w :: pre, u, post, by rw [hsplit]; rfl, hres, lt_trans hlt hw, ?_, hpost⟩
        intro v hv
        rcases List.mem_cons.1 hv with rfl | hv
        · exact hlt
        · exact hpre v hv
    · rw [matchStep_of_not_lt _ _ _ _ _ hw]
      rcases ih st with ⟨hst, hall⟩ | ⟨pre, u, post, hsplit, hres, hlt, hpre, hpost⟩
      · left
        refine ⟨hst, ?_⟩
        intro v hv
        rcases List.mem_cons.1 hv with rfl | hv
        · exact not_lt.1 hw
        · exact hall v hv
      · right
        refine ⟨w :: pre, u, post, by rw [hsplit]; rfl, hres, hlt, ?_, hpost⟩
        intro v hv
        rcases List.mem_cons.1 hv with rfl | hv
        · exact lt_of_lt_of_le hlt (not_lt.1 hw)
        · exact hpre v hv

/-- For a non-empty roster the scan from the initial state ends on a winner. -/
theorem matchLoop_split (incLat incLon : ℝ) (severity : ℤ) (us : List RosterUnit)
    (hne : us ≠ []) :
    ∃ pre u post, us = pre ++ u :: post ∧
      matchLoop incLat incLon severity us =
        { bestUnit := u.1, minScore := getDistance incLat incLon u.2.1 u.2.2 } ∧
      (∀ v ∈ pre, getDistance incLat incLon u.2.1 u.2.2 <
        getDistance incLat incLon v.2.1 v.2.2) ∧
      (∀ v ∈ post, getDistance incLat incLon u.2.1 u.2.2 ≤
        getDistance incLat incLon v.2.1 v.2.2) := by
  rcases foldl_matchStep_split incLat incLon severity us
      { bestUnit := "None", minScore := DBL_MAX } with
    ⟨_, hall⟩ | ⟨pre, u, post, hsplit, hres, _, hpre, hpost⟩
  · obtain ⟨v, hv⟩ := List.exists_mem_of_ne_nil us hne
    exact absurd (hall v hv) (not_le.2 (getDistance_lt_DBL_MAX _ _ _ _))
  · exact ⟨pre, u, post, hsplit, hres, hpre, hpost⟩

theorem getDistance_zero_antipode : getDistance 0 0 0 180 = 6371 * Real.pi := by
  rw [getDistance_eq_arccos]
  have h : cosAngle (0 * Real.pi / 180) (0 * Real.pi / 180) ((180 - 0) * Real.pi / 180) = -1 := by
    have e : ((180 : ℝ) - 0) * Real.pi / 180 = Real.pi := by ring
    rw [e]
    simp [cosAngle]
  rw [h, Real.arccos_neg_one]

theorem getDistance_zero_antipode_pos : 0 < getDistance 0 0 0 180 := by
  rw [getDistance_zero_antipode]
  exact mul_pos (by norm_num) Real.pi_pos

/-- Along the equator, from longitude `0`, the distance is the radius times the
longitude difference in radians. -/
theorem getDistance_equator (lon : ℝ) (h : |lon| ≤ 180) :
    getDistance 0 0 0 lon = 6371 * (|lon| * Real.pi / 180) := by
  rw [getDistance_eq_arccos]
  have hc : cosAngle (0 * Real.pi / 180) (0 * Real.pi / 180) ((lon - 0) * Real.pi / 180) =
      Real.cos (|lon| * Real.pi / 180) := by
    have e : |lon| * Real.pi / 180 = |(lon - 0) * Real.pi / 180| := by
      rw [sub_zero, abs_div, abs_mul, abs_of_pos Real.pi_pos, abs_of_pos (by norm_num : (0 : ℝ) < 180)]
    rw [e, Real.cos_abs]
    simp [cosAngle]
  have h0 : 0 ≤ |lon| * Real.pi / 180 := by
    have := mul_nonneg (abs_nonneg lon) Real.pi_pos.le
    linarith
  have h1 : |lon| * Real.pi / 180 ≤ Real.pi := by
    have := mul_le_mul_of_nonneg_right h Real.pi_pos.le
    linarith
  rw [hc, Real.arccos_cos h0 h1]

/-- With both latitudes in `[-90, 90]` a zero distance forces equal latitudes and
makes the longitude term of `a` vanish. -/
theorem getDistance_eq_zero_parts (lat1 lon1 lat2 lon2 : ℝ)
    (hlat1 : -90 ≤ lat1 ∧ lat1 ≤ 90) (hlat2 : -90 ≤ lat2 ∧ lat2 ≤ 90)
    (h : getDistance lat1 lon1 lat2 lon2 = 0) :
    lat1 = lat2 ∧
      (Real.cos (lat1 * Real.pi / 180) = 0 ∨
        Real.sin ((lon2 - lon1) * Real.pi / 180 / 2) = 0) := by
  have hpi := Real.pi_pos
  rw [getDistance_eq_arccos] at h
  have harc := (mul_eq_zero.1 h).resolve_left (by norm_num)
  have hd := Real.arccos_eq_zero.1 harc
  have ha : haversineA lat1 lon1 lat2 lon2 ≤ 0 := by
    rw [haversineA_eq]
    linarith
  have e180 : (180.0 : ℝ) = 180 := by norm_num
  simp only [haversineA, e180] at ha
  have hc1 : 0 ≤ Real.cos (lat1 * Real.pi / 180) :=
    Real.cos_nonneg_of_neg_pi_div_two_le_of_le
      (by nlinarith [mul_nonneg (sub_nonneg.2 hlat1.1) hpi.le])
      (by nlinarith [mul_nonneg (sub_nonneg.2 hlat1.2) hpi.le])
  have hc2 : 0 ≤ Real.cos (lat2 * Real.pi / 180) :=
    Real.cos_nonneg_of_neg_pi_div_two_le_of_le
      (by nlinarith [mul_nonneg (sub_nonneg.2 hlat2.1) hpi.le])
      (by nlinarith [mul_nonneg (sub_nonneg.2 hlat2.2) hpi.le])
  have hs := mul_self_nonneg (Real.sin ((lat2 - lat1) * Real.pi / 180 / 2))
  have ht := mul_self_nonneg (Real.sin ((lon2 - lon1) * Real.pi / 180 / 2))
  have hprod : 0 ≤ Real.cos (lat1 * Real.pi / 180) * Real.cos (lat2 * Real.pi / 180) *
      (Real.sin ((lon2 - lon1) * Real.pi / 180 / 2) *
        Real.sin ((lon2 - lon1) * Real.pi / 180 / 2)) :=
    mul_nonneg (mul_nonneg hc1 hc2) ht
  have hs0 : Real.sin ((lat2 - lat1) * Real.pi / 180 / 2) = 0 := by
    apply mul_self_eq_zero.1
    nlinarith
  have hlat : lat1 = lat2 := by
    have hx := (Real.sin_eq_zero_iff_of_lt_of_lt
      (by nlinarith [mul_nonneg (sub_nonneg.2 hlat1.2) hpi.le,
        mul_nonneg (sub_nonneg.2 hlat2.1) hpi.le])
      (by nlinarith [mul_nonneg (sub_nonneg.2 hlat1.1) hpi.le,
        mul_nonneg (sub_nonneg.2 hlat2.2) hpi.le])).1 hs0
    have hz : (lat2 - lat1) * Real.pi = 0 := by linarith
    have := (mul_eq_zero.1 hz).resolve_right hpi.ne.symm
    linarith
  refine ⟨hlat, ?_⟩
  subst hlat
  have hz : Real.cos (lat1 * Real.pi / 180) * Real.cos (lat1 * Real.pi / 180) *
      (Real.sin ((lon2 - lon1) * Real.pi / 180 / 2) *
        Real.sin ((lon2 - lon1) * Real.pi / 180 / 2)) = 0 := by
    nlinarith
  rcases mul_eq_zero.1 hz with h1 | h1
  · exact Or.inl (mul_self_eq_zero.1 h1)
  · exact Or.inr (mul_self_eq_zero.1 h1)

/-! ## Claims -/

/-- C1: for every incident position and every non-empty roster, the matching loop
returns the id of a unit of the roster whose score `getDistance (incident, unit)` is
less than or equal to the score of every unit of the roster (and the final
`minScore` is that score). -/
theorem matchLoop_returns_minimum (incLat incLon : ℝ) (severity : ℤ)
    (roster : List RosterUnit) (hne : roster ≠ []) :
    ∃ u ∈ roster,
      (matchLoop incLat incLon severity roster).bestUnit = u.1 ∧
      (matchLoop incLat incLon severity roster).minScore =
        getDistance incLat incLon u.2.1 u.2.2 ∧
      ∀ v ∈ roster,
        getDistance incLat incLon u.2.1 u.2.2 ≤ getDistance incLat incLon v.2.1 v.2.2 := by
  obtain ⟨pre, u, post, hsplit, hres, hpre, hpost⟩ :=
    matchLoop_split incLat incLon severity roster hne
  refine ⟨u, by rw [hsplit]; simp, by rw [hres], by rw [hres], ?_⟩
  intro v hv
  rw [hsplit] at hv
  rcases List.mem_append.1 hv with hv | hv
  · exact le_of_lt (hpre v hv)
  · rcases List.mem_cons.1 hv with rfl | hv
    · exact le_refl _
    · exact hpost v hv

/-- Witness of C1: incident at `(0, 0)`, a roster of a unit at the antipode
followed by a unit at the incident. -/
theorem matchLoop_returns_minimum_witness :
    ([("Far", ((0 : ℝ), (180 : ℝ))), ("Near", (0, 0))] : List RosterUnit) ≠ [] ∧
    ∃ u ∈ ([("Far", ((0 : ℝ), (180 : ℝ))), ("Near", (0, 0))] : List RosterUnit),
      (matchLoop 0 0 1 [("Far", (0, 180)), ("Near", (0, 0))]).bestUnit = u.1 ∧
      (matchLoop 0 0 1 [("Far", (0, 180)), ("Near", (0, 0))]).minScore =
        getDistance 0 0 u.2.1 u.2.2 ∧
      ∀ v ∈ ([("Far", ((0 : ℝ), (180 : ℝ))), ("Near", (0, 0))] : List RosterUnit),
        getDistance 0 0 u.2.1 u.2.2 ≤ getDistance 0 0 v.2.1 v.2.2 :=
  ⟨List.cons_ne_nil _ _,
    matchLoop_returns_minimum 0 0 1 [("Far", (0, 180)), ("Near", (0, 0))]
      (List.cons_ne_nil _ _)⟩

/-- C2 (tie-break): when the unit at index `i` of the roster attains the minimal
score and no earlier index attains it (so `i` is the first of possibly several
units with the minimal score), the matching loop returns the id of that unit, with
`minScore` its score. The loop is a function of the incident and the ordered
roster, so the same roster ordering gives the same winner on every run. -/
theorem matchLoop_tie_first (incLat incLon : ℝ) (severity : ℤ)
    (roster : List RosterUnit) (i : ℕ) (u : RosterUnit)
    (hi : roster[i]? = some u)
    (hmin : ∀ v ∈ roster,
      getDistance incLat incLon u.2.1 u.2.2 ≤ getDistance incLat incLon v.2.1 v.2.2)
    (hfirst : ∀ j v, j < i → roster[j]? = some v →
      getDistance incLat incLon v.2.1 v.2.2 ≠ getDistance incLat incLon u.2.1 u.2.2) :
    (matchLoop incLat incLon severity roster).bestUnit = u.1 ∧
    (matchLoop incLat incLon severity roster).minScore =
      getDistance incLat incLon u.2.1 u.2.2 := by
  have hne : roster ≠ [] := by
    rintro rfl
    simp at hi
  obtain ⟨pre, w, post, hsplit, hres, hpre, hpost⟩ :=
    matchLoop_split incLat incLon severity roster hne
  have hw : roster[pre.length]? = some w := by
    rw [hsplit, List.getElem?_append_right (le_refl _)]
    simp
  have hwmem : w ∈ roster := by rw [hsplit]; simp
  have hwu : getDistance incLat incLon u.2.1 u.2.2 ≤ getDistance incLat incLon w.2.1 w.2.2 :=
    hmin w hwmem
  have huw : u = w := by
    rcases lt_trichotomy i pre.length with hlt | heq | hgt
    · have hu : u ∈ pre := by
        have h1 : pre[i]? = some u := by
          rw [hsplit, List.getElem?_append_left hlt] at hi
          exact hi
        exact List.getElem?_mem h1
      exact absurd (hpre u hu) (not_lt.2 hwu)
    · rw [heq, hw] at hi
      exact (Option.some.inj hi).symm
    · have hge : getDistance incLat incLon w.2.1 w.2.2 ≤
          getDistance incLat incLon u.2.1 u.2.2 := by
        have hu : u ∈ roster := List.getElem?_mem hi
        rw [hsplit] at hu
        rcases List.mem_append.1 hu with hu | hu
        · exact le_of_lt (hpre u hu)
        · rcases List.mem_cons.1 hu with rfl | hu
          · exact le_refl _
          · exact hpost u hu
      exact absurd (le_antisymm hge hwu) (hfirst pre.length w hgt hw)
  rw [hres, huw]
  exact ⟨rfl, rfl⟩

/-- Witness of C2: incident at `(0, 0)`; the roster holds a unit at the antipode,
then two units ten degrees east and ten degrees west of the incident, which tie
for the minimal score. The earlier of the two wins. -/
theorem matchLoop_tie_first_witness :
    getDistance 0 0 0 10 = getDistance 0 0 0 (-10) ∧
    (matchLoop 0 0 1
      [("Far", (0, 180)), ("East", (0, 10)), ("West", (0, -10))]).bestUnit = "East" ∧
    (matchLoop 0 0 1
      [("Far", (0, 180)), ("East", (0, 10)), ("West", (0, -10))]).minScore =
      getDistance 0 0 0 10 := by
  have hE : getDistance 0 0 0 10 = 6371 * (10 * Real.pi / 180) := by
    have h := getDistance_equator 10 (by norm_num [abs_of_pos])
    rwa [abs_of_pos (by norm_num : (0 : ℝ) < 10)] at h
  have hW : getDistance 0 0 0 (-10) = 6371 * (10 * Real.pi / 180) := by
    have h := getDistance_equator (-10) (by norm_num [abs_of_pos])
    rwa [abs_neg, abs_of_pos (by norm_num : (0 : ℝ) < 10)] at h
  have hF : getDistance 0 0 0 10 < getDistance 0 0 0 180 := by
    rw [hE, getDistance_zero_antipode]
    nlinarith [Real.pi_pos]
  refine ⟨by rw [hE, hW], ?_⟩
  refine matchLoop_tie_first 0 0 1
    [("Far", (0, 180)), ("East", (0, 10)), ("West", (0, -10))] 1 ("East", (0, 10)) rfl ?_ ?_
  · intro v hv
    simp only [List.mem_cons, List.mem_singleton, List.not_mem_nil, or_false] at hv
    rcases hv with rfl | rfl | rfl
    · exact le_of_lt hF
    · exact le_refl _
    · exact le_of_eq (by rw [hE, hW])
  · intro j v hj hv
    have hj0 : j = 0 := by omega
    subst hj0
    simp only [List.getElem?_cons_zero, Option.some.injEq] at hv
    subst hv
    exact ne_of_gt hF

/-- C3: for an empty roster the matching loop ends with `bestUnit = "None"` (and
`minScore` still the initial value), for every incident latitude, longitude and
severity; the loop is a total function, so there is no failure. -/
theorem matchLoop_empty (incLat incLon : ℝ) (severity : ℤ) :
    (matchLoop incLat incLon severity []).bestUnit = "None" ∧
    (matchLoop incLat incLon severity []).minScore = DBL_MAX :=
  ⟨rfl, rfl⟩

/-- C5: for all points with latitudes in `[-90, 90]` and longitudes in
`[-180, 180]`, `getDistance` is non-negative. -/
theorem getDistance_nonneg_valid (lat1 lon1 lat2 lon2 : ℝ)
    (hlat1 : -90 ≤ lat1 ∧ lat1 ≤ 90) (hlon1 : -180 ≤ lon1 ∧ lon1 ≤ 180)
    (hlat2 : -90 ≤ lat2 ∧ lat2 ≤ 90) (hlon2 : -180 ≤ lon2 ∧ lon2 ≤ 180) :
    0 ≤ getDistance lat1 lon1 lat2 lon2 :=
  getDistance_nonneg lat1 lon1 lat2 lon2

/-- Witness of C5: the incident of the specification's scenario and Unit_Alpha. -/
theorem getDistance_nonneg_valid_witness :
    0 ≤ getDistance 40.730 (-74.010) 40.715 (-74.008) :=
  getDistance_nonneg_valid 40.730 (-74.010) 40.715 (-74.008)
    (by norm_num) (by norm_num) (by norm_num) (by norm_num)

/-- C6: for all points with latitudes in `[-90, 90]` and longitudes in
`[-180, 180]`, `getDistance` gives the same value with the two points swapped. -/
theorem getDistance_symm_valid (lat1 lon1 lat2 lon2 : ℝ)
    (hlat1 : -90 ≤ lat1 ∧ lat1 ≤ 90) (hlon1 : -180 ≤ lon1 ∧ lon1 ≤ 180)
    (hlat2 : -90 ≤ lat2 ∧ lat2 ≤ 90) (hlon2 : -180 ≤ lon2 ∧ lon2 ≤ 180) :
    getDistance lat1 lon1 lat2 lon2 = getDistance lat2 lon2 lat1 lon1 :=
  getDistance_comm lat1 lon1 lat2 lon2

/-- Witness of C6: Unit_Bravo and Unit_Delta of the built-in roster. -/
theorem getDistance_symm_valid_witness :
    getDistance 40.725 (-74.000) 34.052 (-118.243) =
      getDistance 34.052 (-118.243) 40.725 (-74.000) :=
  getDistance_symm_valid 40.725 (-74.000) 34.052 (-118.243)
    (by norm_num) (by norm_num) (by norm_num) (by norm_num)

/-- C9: `getDistance` is the great-circle distance on the sphere of radius
`6371.0`: for all latitudes and longitudes in degrees it equals the radius times
the arccosine of `sin φ1 · sin φ2 + cos φ1 · cos φ2 · cos Δλ`, the central angle of
the spherical law of cosines. -/
theorem getDistance_refines_greatCircleSpec (lat1 lon1 lat2 lon2 : ℝ) :
    getDistance lat1 lon1 lat2 lon2 = greatCircleSpec lat1 lon1 lat2 lon2 ∧
    greatCircleSpec lat1 lon1 lat2 lon2 =
      6371.0 * Real.arccos
        (Real.sin (lat1 * Real.pi / 180) * Real.sin (lat2 * Real.pi / 180) +
          Real.cos (lat1 * Real.pi / 180) * Real.cos (lat2 * Real.pi / 180) *
            Real.cos ((lon2 - lon1) * Real.pi / 180)) :=
  ⟨getDistance_eq_greatCircleSpec lat1 lon1 lat2 lon2, rfl⟩

/-- C10: severity does not influence the match: for every incident position, every
roster and every two severities the matching loop ends in the same state (same
unit id, same minimum score), and in every step the score compared and stored is
the raw `getDistance (incident, unit)`. -/
theorem matchLoop_severity_irrelevant (incLat incLon : ℝ) (roster : List RosterUnit)
    (s1 s2 : ℤ) :
    (matchLoop incLat incLon s1 roster).bestUnit =
      (matchLoop incLat incLon s2 roster).bestUnit ∧
    (matchLoop incLat incLon s1 roster).minScore =
      (matchLoop incLat incLon s2 roster).minScore ∧
    ∀ (st : MatchState) (u : RosterUnit),
      matchStep incLat incLon s1 st u =
        if getDistance incLat incLon u.2.1 u.2.2 < st.minScore
        then { bestUnit := u.1, minScore := getDistance incLat incLon u.2.1 u.2.2 }
        else st :=
  ⟨rfl, rfl, fun _ _ => rfl⟩

/-! ## Further lemmas on the scan -/

/-- For a non-empty roster the scan ends on a member of the roster with the least
score, and stores that score. -/
theorem matchLoop_mem_min (incLat incLon : ℝ) (severity : ℤ) (us : List RosterUnit)
    (hne : us ≠ []) :
    ∃ u ∈ us,
      matchLoop incLat incLon severity us =
        { bestUnit := u.1, minScore := getDistance incLat incLon u.2.1 u.2.2 } ∧
      ∀ v ∈ us,
        getDistance incLat incLon u.2.1 u.2.2 ≤ getDistance incLat incLon v.2.1 v.2.2 := by
  obtain ⟨pre, u, post, hsplit, hres, hpre, hpost⟩ :=
    matchLoop_split incLat incLon severity us hne
  refine ⟨u, by rw [hsplit]; simp, hres, ?_⟩
  intro v hv
  rw [hsplit] at hv
  rcases List.mem_append.1 hv with hv | hv
  · exact le_of_lt (hpre v hv)
  · rcases List.mem_cons.1 hv with rfl | hv
    · exact le_refl _
    · exact hpost v hv

/-! ## Comparing distances through the local `a` -/

/-- The distance is strictly increasing in the local `a`. -/
theorem getDistance_lt_of_haversineA_lt (lat1 lon1 lat2 lon2 lat3 lon3 lat4 lon4 : ℝ)
    (h : haversineA lat1 lon1 lat2 lon2 < haversineA lat3 lon3 lat4 lon4) :
    getDistance lat1 lon1 lat2 lon2 < getDistance lat3 lon3 lat4 lon4 := by
  rw [haversineA_eq, haversineA_eq] at h
  rw [getDistance_eq_arccos, getDistance_eq_arccos]
  have hlt : cosAngle (lat3 * Real.pi / 180) (lat4 * Real.pi / 180)
      ((lon4 - lon3) * Real.pi / 180) <
      cosAngle (lat1 * Real.pi / 180) (lat2 * Real.pi / 180)
        ((lon2 - lon1) * Real.pi / 180) := by linarith
  have harc := Real.strictAntiOn_arccos
    ⟨neg_one_le_cosAngle _ _ _, cosAngle_le_one _ _ _⟩
    ⟨neg_one_le_cosAngle _ _ _, cosAngle_le_one _ _ _⟩ hlt
  exact mul_lt_mul_of_pos_left harc (by norm_num)

theorem cos_lat_nonneg (lat : ℝ) (h : -90 ≤ lat ∧ lat ≤ 90) :
    0 ≤ Real.cos (lat * Real.pi / 180) :=
  Real.cos_nonneg_of_neg_pi_div_two_le_of_le
    (by nlinarith [mul_nonneg (sub_nonneg.2 h.1) Real.pi_pos.le])
    (by nlinarith [mul_nonneg (sub_nonneg.2 h.2) Real.pi_pos.le])

/-- A lower bound of the squared sine near the origin. -/
theorem sin_sq_lower (t : ℝ) (ht : |t| ≤ 1) : 9 / 16 * t ^ 2 ≤ Real.sin t ^ 2 := by
  have key : ∀ u : ℝ, 0 ≤ u → u ≤ 1 → 9 / 16 * u ^ 2 ≤ Real.sin u ^ 2 := by
    intro u h0 h1
    rcases eq_or_lt_of_le h0 with rfl | hpos
    · simp
    · have h := Real.sin_gt_sub_cube hpos h1
      have h3 : 3 / 4 * u ≤ Real.sin u := by
        nlinarith [mul_nonneg h0 (mul_nonneg h0 (sub_nonneg.2 h1)),
          mul_nonneg h0 (sub_nonneg.2 h1)]
      nlinarith
  rcases le_total 0 t with h | h
  · exact key t h (by rwa [abs_of_nonneg h] at ht)
  · have h2 := key (-t) (by linarith) (by rwa [abs_of_nonpos h] at ht)
    simpa [Real.sin_neg] using h2

/-- The local `a` is at most the squared half-differences of the coordinates. -/
theorem haversineA_le_sq (lat1 lon1 lat2 lon2 : ℝ) :
    haversineA lat1 lon1 lat2 lon2 ≤
      ((lat2 - lat1) * Real.pi / 180 / 2) ^ 2 + ((lon2 - lon1) * Real.pi / 180 / 2) ^ 2 := by
  have e180 : (180.0 : ℝ) = 180 := by norm_num
  simp only [haversineA, e180]
  have h1 := @Real.sin_sq_le_sq ((lat2 - lat1) * Real.pi / 180 / 2)
  have h2 := @Real.sin_sq_le_sq ((lon2 - lon1) * Real.pi / 180 / 2)
  have hc : Real.cos (lat1 * Real.pi / 180) * Real.cos (lat2 * Real.pi / 180) ≤ 1 := by
    nlinarith [mul_nonneg (sub_nonneg.2 (Real.cos_le_one (lat1 * Real.pi / 180)))
        (by linarith [Real.neg_one_le_cos (lat2 * Real.pi / 180)] :
          (0 : ℝ) ≤ 1 + Real.cos (lat2 * Real.pi / 180)),
      mul_nonneg (by linarith [Real.neg_one_le_cos (lat1 * Real.pi / 180)] :
          (0 : ℝ) ≤ 1 + Real.cos (lat1 * Real.pi / 180))
        (sub_nonneg.2 (Real.cos_le_one (lat2 * Real.pi / 180)))]
  nlinarith [mul_nonneg (sub_nonneg.2 hc)
    (sq_nonneg (Real.sin ((lon2 - lon1) * Real.pi / 180 / 2)))]

/-- With both latitudes in `[-90, 90]` the local `a` is at least its latitude term. -/
theorem haversineA_ge_lat (lat1 lon1 lat2 lon2 : ℝ)
    (hlat1 : -90 ≤ lat1 ∧ lat1 ≤ 90) (hlat2 : -90 ≤ lat2 ∧ lat2 ≤ 90) :
    Real.sin ((lat2 - lat1) * Real.pi / 180 / 2) ^ 2 ≤ haversineA lat1 lon1 lat2 lon2 := by
  have e180 : (180.0 : ℝ) = 180 := by norm_num
  simp only [haversineA, e180]
  have hc := mul_nonneg (cos_lat_nonneg lat1 hlat1) (cos_lat_nonneg lat2 hlat2)
  nlinarith [mul_nonneg hc (sq_nonneg (Real.sin ((lon2 - lon1) * Real.pi / 180 / 2)))]

/-- A sufficient test in degrees for one unit to be strictly nearer than another:
the latitudes of the incident and of the far unit are in range and at most ninety
degrees apart, and the squared coordinate differences of the near unit are below
nine sixteenths of the squared latitude difference of the far unit. -/
theorem getDistance_lt_of_degrees (incLat incLon latX lonX latY lonY : ℝ)
    (hinc : -90 ≤ incLat ∧ incLat ≤ 90) (hY : -90 ≤ latY ∧ latY ≤ 90)
    (hclose : -90 ≤ latY - incLat ∧ latY - incLat ≤ 90)
    (hdeg : (latX - incLat) ^ 2 + (lonX - incLon) ^ 2 < 9 / 16 * (latY - incLat) ^ 2) :
    getDistance incLat incLon latX lonX < getDistance incLat incLon latY lonY := by
  apply getDistance_lt_of_haversineA_lt
  have hpi := Real.pi_pos
  have hpi4 := Real.pi_lt_four
  have hup := haversineA_le_sq incLat incLon latX lonX
  have hlo := haversineA_ge_lat incLat incLon latY lonY hinc hY
  have habs : |(latY - incLat) * Real.pi / 180 / 2| ≤ 1 := by
    rw [abs_le]
    constructor
    · nlinarith [mul_nonneg (by linarith [hclose.1] : (0 : ℝ) ≤ latY - incLat + 90) hpi.le]
    · nlinarith [mul_nonneg (by linarith [hclose.2] : (0 : ℝ) ≤ 90 - (latY - incLat)) hpi.le]
  have hsin := sin_sq_lower _ habs
  have hk : 0 < (Real.pi / 360) ^ 2 := by positivity
  have hscale := mul_lt_mul_of_pos_left hdeg hk
  calc haversineA incLat incLon latX lonX
      ≤ ((latX - incLat) * Real.pi / 180 / 2) ^ 2 +
          ((lonX - incLon) * Real.pi / 180 / 2) ^ 2 := hup
    _ = (Real.pi / 360) ^ 2 * ((latX - incLat) ^ 2 + (lonX - incLon) ^ 2) := by ring
    _ < (Real.pi / 360) ^ 2 * (9 / 16 * (latY - incLat) ^ 2) := hscale
    _ = 9 / 16 * ((latY - incLat) * Real.pi / 180 / 2) ^ 2 := by ring
    _ ≤ Real.sin ((latY - incLat) * Real.pi / 180 / 2) ^ 2 := hsin
    _ ≤ haversineA incLat incLon latY lonY := hlo

/-! ## Claims on the built-in roster and on the distance function -/

/-- C11: with the built-in roster and the incident exactly at Unit_Bravo's
coordinates `(40.725, -74.000)`, for every severity the program prints
`Unit_Bravo` and the final `minScore` is `0`, although Unit_Alpha comes first in
the roster (its score is strictly positive). -/
theorem main_at_bravo (severity : ℤ) :
    main (some (40.725, -74.000, severity)) = ["Unit_Bravo"] ∧
    (matchLoop 40.725 (-74.000) severity units).bestUnit = "Unit_Bravo" ∧
    (matchLoop 40.725 (-74.000) severity units).minScore = 0 ∧
    0 < getDistance 40.725 (-74.000) 40.715 (-74.008) := by
  have hI : (-90 : ℝ) ≤ 40.725 ∧ (40.725 : ℝ) ≤ 90 := by norm_num
  have hA : getDistance 40.725 (-74.000) 40.715 (-74.008) ≠ 0 := by
    intro h
    have := (getDistance_eq_zero_parts _ _ _ _ hI (by norm_num) h).1
    norm_num at this
  have hC : getDistance 40.725 (-74.000) 40.700 (-74.020) ≠ 0 := by
    intro h
    have := (getDistance_eq_zero_parts _ _ _ _ hI (by norm_num) h).1
    norm_num at this
  have hD : getDistance 40.725 (-74.000) 34.052 (-118.243) ≠ 0 := by
    intro h
    have := (getDistance_eq_zero_parts _ _ _ _ hI (by norm_num) h).1
    norm_num at this
  have hB : getDistance 40.725 (-74.000) 40.725 (-74.000) = 0 := getDistance_self _ _
  obtain ⟨w, hw, hres, hmin⟩ :=
    matchLoop_mem_min 40.725 (-74.000) severity units (List.cons_ne_nil _ _)
  have hw0 : getDistance 40.725 (-74.000) w.2.1 w.2.2 = 0 := by
    have h := hmin ("Unit_Bravo", (40.725, -74.000)) (by simp [units])
    exact le_antisymm (by rw [← hB]; exact h) (getDistance_nonneg _ _ _ _)
  have hname : w.1 = "Unit_Bravo" := by
    simp only [units, List.mem_cons, List.mem_singleton, List.not_mem_nil, or_false] at hw
    rcases hw with rfl | rfl | rfl | rfl
    · exact absurd hw0 hA
    · rfl
    · exact absurd hw0 hC
    · exact absurd hw0 hD
  have hbest : (matchLoop 40.725 (-74.000) severity units).bestUnit = "Unit_Bravo" := by
    rw [hres]
    exact hname
  refine ⟨?_, hbest, by rw [hres]; exact hw0, lt_of_le_of_ne (getDistance_nonneg _ _ _ _)
    (Ne.symm hA)⟩
  show [(matchLoop 40.725 (-74.000) severity units).bestUnit] = ["Unit_Bravo"]
  rw [hbest]

/-- C12: with the built-in roster and the incident at `(40.730, -74.010)`, for
every severity the program prints the id of the one of Unit_Alpha, Unit_Bravo,
Unit_Charlie nearest to the incident; it never prints `Unit_Delta`, whose distance
is strictly larger than that of each of the other three. The nearest unit is
Unit_Bravo, strictly nearer than Unit_Alpha and Unit_Charlie. -/
theorem main_scenario_nearest (severity : ℤ) :
    (∃ w ∈ ([("Unit_Alpha", (40.715, -74.008)), ("Unit_Bravo", (40.725, -74.000)),
          ("Unit_Charlie", (40.700, -74.020))] : List RosterUnit),
      main (some (40.730, -74.010, severity)) = [w.1] ∧
      ∀ v ∈ ([("Unit_Alpha", (40.715, -74.008)), ("Unit_Bravo", (40.725, -74.000)),
          ("Unit_Charlie", (40.700, -74.020))] : List RosterUnit),
        getDistance 40.730 (-74.010) w.2.1 w.2.2 ≤
          getDistance 40.730 (-74.010) v.2.1 v.2.2) ∧
    main (some (40.730, -74.010, severity)) ≠ ["Unit_Delta"] ∧
    (∀ v ∈ ([("Unit_Alpha", (40.715, -74.008)), ("Unit_Bravo", (40.725, -74.000)),
          ("Unit_Charlie", (40.700, -74.020))] : List RosterUnit),
      getDistance 40.730 (-74.010) v.2.1 v.2.2 <
        getDistance 40.730 (-74.010) 34.052 (-118.243)) ∧
    main (some (40.730, -74.010, severity)) = ["Unit_Bravo"] ∧
    getDistance 40.730 (-74.010) 40.725 (-74.000) <
      getDistance 40.730 (-74.010) 40.715 (-74.008) ∧
    getDistance 40.730 (-74.010) 40.725 (-74.000) <
      getDistance 40.730 (-74.010) 40.700 (-74.020) := by
  have hI : (-90 : ℝ) ≤ 40.730 ∧ (40.730 : ℝ) ≤ 90 := by norm_num
  have hBA : getDistance 40.730 (-74.010) 40.725 (-74.000) <
      getDistance 40.730 (-74.010) 40.715 (-74.008) :=
    getDistance_lt_of_degrees _ _ _ _ _ _ hI (by norm_num) (by norm_num) (by norm_num)
  have hBC : getDistance 40.730 (-74.010) 40.725 (-74.000) <
      getDistance 40.730 (-74.010) 40.700 (-74.020) :=
    getDistance_lt_of_degrees _ _ _ _ _ _ hI (by norm_num) (by norm_num) (by norm_num)
  have hBD : getDistance 40.730 (-74.010) 40.725 (-74.000) <
      getDistance 40.730 (-74.010) 34.052 (-118.243) :=
    getDistance_lt_of_degrees _ _ _ _ _ _ hI (by norm_num) (by norm_num) (by norm_num)
  have hAD : getDistance 40.730 (-74.010) 40.715 (-74.008) <
      getDistance 40.730 (-74.010) 34.052 (-118.243) :=
    getDistance_lt_of_degrees _ _ _ _ _ _ hI (by norm_num) (by norm_num) (by norm_num)
  have hCD : getDistance 40.730 (-74.010) 40.700 (-74.020) <
      getDistance 40.730 (-74.010) 34.052 (-118.243) :=
    getDistance_lt_of_degrees _ _ _ _ _ _ hI (by norm_num) (by norm_num) (by norm_num)
  obtain ⟨w, hw, hres, hmin⟩ :=
    matchLoop_mem_min 40.730 (-74.010) severity units (List.cons_ne_nil _ _)
  have hwB : getDistance 40.730 (-74.010) w.2.1 w.2.2 ≤
      getDistance 40.730 (-74.010) 40.725 (-74.000) :=
    hmin ("Unit_Bravo", (40.725, -74.000)) (by simp [units])
  have hname : w.1 = "Unit_Bravo" := by
    simp only [units, List.mem_cons, List.mem_singleton, List.not_mem_nil, or_false] at hw
    rcases hw with rfl | rfl | rfl | rfl
    · exact absurd hwB (not_le.2 hBA)
    · rfl
    · exact absurd hwB (not_le.2 hBC)
    · exact absurd hwB (not_le.2 hBD)
  have hout : main (some (40.730, -74.010, severity)) = ["Unit_Bravo"] := by
    show [(matchLoop 40.730 (-74.010) severity units).bestUnit] = ["Unit_Bravo"]
    rw [hres, hname]
  refine ⟨⟨("Unit_Bravo", (40.725, -74.000)), by simp, hout, ?_⟩, ?_, ?_, hout, hBA, hBC⟩
  · intro v hv
    simp only [List.mem_cons, List.mem_singleton, List.not_mem_nil, or_false] at hv
    rcases hv with rfl | rfl | rfl
    · exact le_of_lt hBA
    · exact le_refl _
    · exact le_of_lt hBC
  · rw [hout]
    decide
  · intro v hv
    simp only [List.mem_cons, List.mem_singleton, List.not_mem_nil, or_false] at hv
    rcases hv with rfl | rfl | rfl
    · exact hAD
    · exact hBD
    · exact hCD

/-- C16: the result does not depend on the roster order when there is no tie. For
a roster `r1` and any permutation `r2` of it, the minimum score found is the same;
and when a unit `u` of `r1` attains the minimum score and is the only unit of `r1`
attaining it, the matching loop returns the id of `u` on `r1` and on `r2`. -/
theorem matchLoop_perm (incLat incLon : ℝ) (severity : ℤ) (r1 r2 : List RosterUnit)
    (hperm : r1.Perm r2) :
    (matchLoop incLat incLon severity r1).minScore =
      (matchLoop incLat incLon severity r2).minScore ∧
    ∀ u ∈ r1,
      (∀ v ∈ r1, getDistance incLat incLon u.2.1 u.2.2 ≤
        getDistance incLat incLon v.2.1 v.2.2) →
      (∀ v ∈ r1, getDistance incLat incLon v.2.1 v.2.2 =
        getDistance incLat incLon u.2.1 u.2.2 → v = u) →
      (matchLoop incLat incLon severity r1).bestUnit = u.1 ∧
      (matchLoop incLat incLon severity r2).bestUnit = u.1 := by
  by_cases hne : r1 = []
  · subst hne
    have h2 : r2 = [] := List.Perm.eq_nil (List.Perm.symm hperm)
    subst h2
    exact ⟨rfl, fun u hu => absurd hu (List.not_mem_nil u)⟩
  · have hne2 : r2 ≠ [] := by
      intro h2
      rw [h2] at hperm
      exact hne (List.Perm.eq_nil hperm)
    obtain ⟨w1, hw1, hres1, hmin1⟩ := matchLoop_mem_min incLat incLon severity r1 hne
    obtain ⟨w2, hw2, hres2, hmin2⟩ := matchLoop_mem_min incLat incLon severity r2 hne2
    have hw2' : w2 ∈ r1 := (List.Perm.mem_iff hperm).2 hw2
    have hw1' : w1 ∈ r2 := (List.Perm.mem_iff hperm).1 hw1
    refine ⟨?_, ?_⟩
    · rw [hres1, hres2]
      exact le_antisymm (hmin1 w2 hw2') (hmin2 w1 hw1')
    · intro u hu hmin huniq
      have e1 : w1 = u := huniq w1 hw1 (le_antisymm (hmin1 u hu) (hmin w1 hw1))
      have e2 : w2 = u :=
        huniq w2 hw2' (le_antisymm (hmin2 u ((List.Perm.mem_iff hperm).1 hu)) (hmin w2 hw2'))
      rw [hres1, hres2, e1, e2]
      exact ⟨rfl, rfl⟩

/-- Witness of C16: incident at `(0, 0)`, a unit at the antipode and a unit at the
incident, in both orders: the same minimum score, and the unit at the incident
wins in both orders. -/
theorem matchLoop_perm_witness :
    (matchLoop 0 0 1 [("Far", (0, 180)), ("Near", (0, 0))]).minScore =
      (matchLoop 0 0 1 [("Near", (0, 0)), ("Far", (0, 180))]).minScore ∧
    (matchLoop 0 0 1 [("Far", (0, 180)), ("Near", (0, 0))]).bestUnit = "Near" ∧
    (matchLoop 0 0 1 [("Near", (0, 0)), ("Far", (0, 180))]).bestUnit = "Near" := by
  have h := matchLoop_perm 0 0 1 [("Far", (0, 180)), ("Near", (0, 0))]
    [("Near", (0, 0)), ("Far", (0, 180))] (List.Perm.swap _ _ _)
  have hN : getDistance 0 0 0 0 = 0 := getDistance_self 0 0
  refine ⟨h.1, h.2 ("Near", (0, 0)) (by simp) ?_ ?_⟩
  · intro v hv
    show getDistance 0 0 0 0 ≤ _
    rw [hN]
    exact getDistance_nonneg _ _ _ _
  · intro v hv hd
    simp only [List.mem_cons, List.mem_singleton, List.not_mem_nil, or_false] at hv
    rcases hv with rfl | rfl
    · have hd2 : getDistance 0 0 0 180 = getDistance 0 0 0 0 := hd
      rw [hN] at hd2
      exact absurd hd2 (ne_of_gt getDistance_zero_antipode_pos)
    · rfl

/-! ## Arithmetic with the special values of `double` -/

theorem overflowAt_gt : (4 : ℝ) * 10 ^ 300 < Dbl.overflowAt := by
  unfold Dbl.overflowAt
  norm_num

theorem Dbl.ofReal_of_abs_le {x : ℝ} (h : |x| ≤ 4 * 10 ^ 300) : Dbl.ofReal x = Dbl.fin x := by
  have hlt := overflowAt_gt
  have hx := abs_le.1 h
  unfold Dbl.ofReal
  rw [if_neg (by linarith [hx.2]), if_neg (by linarith [hx.1])]

theorem Dbl.fin_add_fin (x y : ℝ) (h : |x + y| ≤ 4 * 10 ^ 300) :
    Dbl.fin x + Dbl.fin y = Dbl.fin (x + y) := by
  show Dbl.ofReal (x + y) = _
  exact Dbl.ofReal_of_abs_le h

theorem Dbl.fin_sub_fin (x y : ℝ) (h : |x - y| ≤ 4 * 10 ^ 300) :
    Dbl.fin x - Dbl.fin y = Dbl.fin (x - y) := by
  show Dbl.ofReal (x + -y) = _
  rw [← sub_eq_add_neg]
  exact Dbl.ofReal_of_abs_le h

theorem Dbl.fin_mul_fin (x y : ℝ) (h : |x * y| ≤ 4 * 10 ^ 300) :
    Dbl.fin x * Dbl.fin y = Dbl.fin (x * y) := by
  show Dbl.ofReal (x * y) = _
  exact Dbl.ofReal_of_abs_le h

theorem Dbl.fin_div_fin (x y : ℝ) (hy : y ≠ 0) (h : |x / y| ≤ 4 * 10 ^ 300) :
    Dbl.fin x / Dbl.fin y = Dbl.fin (x / y) := by
  show Dbl.div (Dbl.fin x) (Dbl.fin y) = _
  simp only [Dbl.div, if_neg hy]
  exact Dbl.ofReal_of_abs_le h

theorem Dbl.nan_add (a : Dbl) : Dbl.nan + a = Dbl.nan := by
  cases a <;> rfl

theorem Dbl.add_nan (a : Dbl) : a + Dbl.nan = Dbl.nan := by
  cases a <;> rfl

theorem Dbl.nan_mul (a : Dbl) : Dbl.nan * a = Dbl.nan := by
  cases a <;> rfl

theorem M_PI_pos : 0 < M_PI := by
  unfold M_PI
  positivity

theorem M_PI_lt_four : M_PI < 4 := by
  unfold M_PI
  norm_num

/-- Degrees to radians without overflow. -/
theorem Dbl.deg_to_rad (x : ℝ) (h : |x| ≤ 10 ^ 300) :
    Dbl.fin x * Dbl.fin M_PI / Dbl.fin 180.0 = Dbl.fin (x * M_PI / 180) := by
  have hpi := M_PI_pos
  have hpi4 := M_PI_lt_four
  have hx := abs_le.1 h
  have e180 : (180.0 : ℝ) = 180 := by norm_num
  have hm : |x * M_PI| ≤ 4 * 10 ^ 300 := by
    rw [abs_mul, abs_of_pos hpi]
    nlinarith [abs_nonneg x]
  have hd : |x * M_PI / 180| ≤ 4 * 10 ^ 300 := by
    rw [abs_div, abs_of_pos (by norm_num : (0 : ℝ) < 180)]
    have : |x * M_PI| / 180 ≤ |x * M_PI| := by
      apply div_le_self (abs_nonneg _)
      norm_num
    linarith
  rw [Dbl.fin_mul_fin _ _ hm, e180, Dbl.fin_div_fin _ _ (by norm_num) hd]

/-- Halving without overflow. -/
theorem Dbl.half (x : ℝ) (h : |x| ≤ 4 * 10 ^ 300) :
    Dbl.fin x / Dbl.fin 2 = Dbl.fin (x / 2) := by
  have hd : |x / 2| ≤ 4 * 10 ^ 300 := by
    rw [abs_div, abs_of_pos (by norm_num : (0 : ℝ) < 2)]
    have : |x| / 2 ≤ |x| := by
      apply div_le_self (abs_nonneg _)
      norm_num
    linarith
  exact Dbl.fin_div_fin _ _ (by norm_num) hd

/-- The haversine sum of two points given in radians is half of one minus the
cosine of their central angle. -/
theorem haversine_rad (p1 p2 dl : ℝ) :
    Real.sin ((p2 - p1) / 2) * Real.sin ((p2 - p1) / 2) +
        Real.cos p1 * Real.cos p2 * Real.sin (dl / 2) * Real.sin (dl / 2) =
      (1 - cosAngle p1 p2 dl) / 2 := by
  have hA : ∀ x : ℝ, Real.sin (x / 2) * Real.sin (x / 2) = (1 - Real.cos x) / 2 := by
    intro x
    have h := Real.cos_two_mul (x / 2)
    rw [show 2 * (x / 2) = x by ring] at h
    nlinarith [Real.sin_sq_add_cos_sq (x / 2)]
  rw [mul_assoc (Real.cos p1 * Real.cos p2), hA, hA, Real.cos_sub]
  unfold cosAngle
  ring

/-- The angle computed from `a = (1 - d) / 2` by lines 18 of `getDistance` is the
arccosine of `d`. -/
theorem two_atan2_sqrt (d : ℝ) (hd2 : -1 ≤ d) (hd1 : d ≤ 1) :
    2 * atan2 (Real.sqrt ((1 - d) / 2)) (Real.sqrt (1 - (1 - d) / 2)) = Real.arccos d := by
  have hcos : Real.cos (Real.arccos d) = d := Real.cos_arccos hd2 hd1
  have h0 : 0 ≤ Real.arccos d / 2 := by linarith [Real.arccos_nonneg d]
  have hpi : Real.arccos d / 2 ≤ Real.pi / 2 := by linarith [Real.arccos_le_pi d]
  have h2 := Real.cos_two_mul (Real.arccos d / 2)
  rw [show 2 * (Real.arccos d / 2) = Real.arccos d by ring, hcos] at h2
  have hsc := Real.sin_sq_add_cos_sq (Real.arccos d / 2)
  have hs : Real.sqrt ((1 - d) / 2) = Real.sin (Real.arccos d / 2) := by
    have hsq : (1 - d) / 2 = Real.sin (Real.arccos d / 2) ^ 2 := by linarith
    rw [hsq]
    exact Real.sqrt_sq (Real.sin_nonneg_of_nonneg_of_le_pi h0 (by linarith [Real.pi_pos]))
  have hc : Real.sqrt (1 - (1 - d) / 2) = Real.cos (Real.arccos d / 2) := by
    have hsq : 1 - (1 - d) / 2 = Real.cos (Real.arccos d / 2) ^ 2 := by linarith
    rw [hsq]
    exact Real.sqrt_sq (Real.cos_nonneg_of_neg_pi_div_two_le_of_le
      (by linarith [Real.pi_pos]) hpi)
  rw [hs, hc, atan2_sin_cos _ h0 hpi]
  ring

theorem getDistanceD_eq_distanceFromA (lat1 lon1 lat2 lon2 : ℝ) :
    getDistanceD lat1 lon1 lat2 lon2 = distanceFromA (haversineAD lat1 lon1 lat2 lon2) :=
  rfl

/-- Without overflow the local `a` in `double`s is the exact haversine sum. -/
theorem haversineAD_eq_fin (lat1 lon1 lat2 lon2 : ℝ)
    (h1 : |lat1| ≤ 10 ^ 300) (h2 : |lat2| ≤ 10 ^ 300)
    (h3 : |lat2 - lat1| ≤ 10 ^ 300) (h4 : |lon2 - lon1| ≤ 10 ^ 300) :
    haversineAD lat1 lon1 lat2 lon2 =
      Dbl.fin ((1 - cosAngle (lat1 * M_PI / 180) (lat2 * M_PI / 180)
        ((lon2 - lon1) * M_PI / 180)) / 2) := by
  have hpi := M_PI_pos
  have hpi4 := M_PI_lt_four
  have big : ∀ x : ℝ, |x| ≤ 2 → |x| ≤ 4 * 10 ^ 300 := by
    intro x hx
    have : (2 : ℝ) ≤ 4 * 10 ^ 300 := by norm_num
    linarith
  have hrad : ∀ x : ℝ, |x| ≤ 10 ^ 300 → |x * M_PI / 180| ≤ 4 * 10 ^ 300 := by
    intro x hx
    rw [abs_div, abs_mul, abs_of_pos hpi, abs_of_pos (by norm_num : (0 : ℝ) < 180)]
    have h0 := abs_nonneg x
    have : |x| * M_PI / 180 ≤ |x| * 4 := by
      rw [div_le_iff₀ (by norm_num : (0 : ℝ) < 180)]
      nlinarith
    linarith
  have hDelta : ∀ x y : ℝ, |y - x| ≤ 10 ^ 300 →
      (Dbl.fin y - Dbl.fin x) * Dbl.fin M_PI / Dbl.fin 180.0 / Dbl.fin 2 =
        Dbl.fin ((y - x) * M_PI / 180 / 2) := by
    intro x y hxy
    rw [Dbl.fin_sub_fin _ _ (by linarith), Dbl.deg_to_rad _ hxy, Dbl.half _ (hrad _ hxy)]
  have hone : ∀ x y : ℝ, |x| ≤ 1 → |y| ≤ 1 → |x * y| ≤ 1 := by
    intro x y hx hy
    rw [abs_mul]
    exact mul_le_one₀ hx (abs_nonneg y) hy
  have hs1 := Real.abs_sin_le_one ((lat2 - lat1) * M_PI / 180 / 2)
  have hs2 := Real.abs_sin_le_one ((lon2 - lon1) * M_PI / 180 / 2)
  have hc1 := Real.abs_cos_le_one (lat1 * M_PI / 180)
  have hc2 := Real.abs_cos_le_one (lat2 * M_PI / 180)
  have hp1 := hone _ _ hs1 hs1
  have hq1 := hone _ _ hc1 hc2
  have hq2 := hone _ _ hq1 hs2
  have hq3 := hone _ _ hq2 hs2
  have hsum : |Real.sin ((lat2 - lat1) * M_PI / 180 / 2) *
        Real.sin ((lat2 - lat1) * M_PI / 180 / 2) +
      Real.cos (lat1 * M_PI / 180) * Real.cos (lat2 * M_PI / 180) *
        Real.sin ((lon2 - lon1) * M_PI / 180 / 2) *
        Real.sin ((lon2 - lon1) * M_PI / 180 / 2)| ≤ 2 := by
    refine le_trans (abs_add _ _) ?_
    linarith
  simp only [haversineAD]
  rw [hDelta lat1 lat2 h3, hDelta lon1 lon2 h4, Dbl.deg_to_rad lat1 h1, Dbl.deg_to_rad lat2 h2]
  simp only [Dbl.sin, Dbl.cos]
  rw [Dbl.fin_mul_fin _ _ (big _ (by linarith)), Dbl.fin_mul_fin _ _ (big _ (by linarith)),
    Dbl.fin_mul_fin _ _ (big _ (by linarith)), Dbl.fin_mul_fin _ _ (big _ (by linarith)),
    Dbl.fin_add_fin _ _ (big _ hsum)]
  congr 1
  have hd : (lat2 - lat1) * M_PI / 180 = lat2 * M_PI / 180 - lat1 * M_PI / 180 := by ring
  rw [hd]
  exact haversine_rad _ _ _

/-- The last two lines of `getDistance` on a finite `a` in `[0, 1]`. -/
theorem distanceFromA_fin (d : ℝ) (hd2 : -1 ≤ d) (hd1 : d ≤ 1) :
    distanceFromA (Dbl.fin ((1 - d) / 2)) = Dbl.fin (6371 * Real.arccos d) := by
  have hpi := Real.pi_pos
  have hpi4 := Real.pi_lt_four
  have big : ∀ x : ℝ, |x| ≤ 10 ^ 6 → |x| ≤ 4 * 10 ^ 300 := by
    intro x hx
    have : (10 : ℝ) ^ 6 ≤ 4 * 10 ^ 300 := by norm_num
    linarith
  have ha0 : ¬ (1 - d) / 2 < 0 := by
    rw [not_lt]
    linarith
  have hb0 : ¬ 1 - (1 - d) / 2 < 0 := by
    rw [not_lt]
    linarith
  have e6371 : (6371.0 : ℝ) = 6371 := by norm_num
  have harc0 := Real.arccos_nonneg d
  have harc1 := Real.arccos_le_pi d
  have hsub : |1 - (1 - d) / 2| ≤ 10 ^ 6 := by
    rw [abs_le]
    constructor <;> norm_num <;> linarith
  have h2 : |2 * atan2 (Real.sqrt ((1 - d) / 2)) (Real.sqrt (1 - (1 - d) / 2))| ≤ 10 ^ 6 := by
    rw [two_atan2_sqrt d hd2 hd1, abs_of_nonneg harc0]
    norm_num
    linarith
  have h3 : |6371 * (2 * atan2 (Real.sqrt ((1 - d) / 2)) (Real.sqrt (1 - (1 - d) / 2)))| ≤
      10 ^ 6 := by
    rw [two_atan2_sqrt d hd2 hd1, abs_of_nonneg (mul_nonneg (by norm_num) harc0)]
    norm_num
    nlinarith
  simp only [distanceFromA, e6371]
  rw [Dbl.fin_sub_fin _ _ (big _ hsub)]
  simp only [Dbl.sqrt, if_neg ha0, if_neg hb0, Dbl.atan2]
  rw [Dbl.fin_mul_fin _ _ (big _ h2), Dbl.fin_mul_fin _ _ (big _ h3), two_atan2_sqrt d hd2 hd1]

/-- Without overflow `getDistance` in `double`s is the radius times the central
angle of the two points, the angles converted with `M_PI`. -/
theorem getDistanceD_eq_fin (lat1 lon1 lat2 lon2 : ℝ)
    (h1 : |lat1| ≤ 10 ^ 300) (h2 : |lat2| ≤ 10 ^ 300)
    (h3 : |lat2 - lat1| ≤ 10 ^ 300) (h4 : |lon2 - lon1| ≤ 10 ^ 300) :
    getDistanceD lat1 lon1 lat2 lon2 =
      Dbl.fin (6371 * Real.arccos (cosAngle (lat1 * M_PI / 180) (lat2 * M_PI / 180)
        ((lon2 - lon1) * M_PI / 180))) := by
  rw [getDistanceD_eq_distanceFromA, haversineAD_eq_fin _ _ _ _ h1 h2 h3 h4]
  exact distanceFromA_fin _ (neg_one_le_cosAngle _ _ _) (cosAngle_le_one _ _ _)

theorem distanceFromA_nan : distanceFromA Dbl.nan = Dbl.nan := rfl

/-- When `lat1 * M_PI` overflows, the cosine of the latitude is NaN and so is the
result of `getDistance`. -/
theorem getDistanceD_nan_of_overflow (lat1 lon1 lat2 lon2 : ℝ)
    (h : Dbl.overflowAt ≤ lat1 * M_PI) : getDistanceD lat1 lon1 lat2 lon2 = Dbl.nan := by
  have e180 : (0 : ℝ) ≤ 180.0 := by norm_num
  have hc : Dbl.cos (Dbl.fin lat1 * Dbl.fin M_PI / Dbl.fin 180.0) = Dbl.nan := by
    have hm : Dbl.fin lat1 * Dbl.fin M_PI = Dbl.pinf := by
      show Dbl.ofReal (lat1 * M_PI) = _
      unfold Dbl.ofReal
      rw [if_pos h]
    rw [hm]
    show Dbl.cos (Dbl.div Dbl.pinf (Dbl.fin 180.0)) = Dbl.nan
    simp only [Dbl.div, if_pos e180, Dbl.cos]
  have ha : haversineAD lat1 lon1 lat2 lon2 = Dbl.nan := by
    simp only [haversineAD]
    rw [hc, Dbl.nan_mul, Dbl.nan_mul, Dbl.nan_mul, Dbl.add_nan]
  rw [getDistanceD_eq_distanceFromA, ha, distanceFromA_nan]

theorem overflow_1e308 : Dbl.overflowAt ≤ (1e308 : ℝ) * M_PI := by
  unfold Dbl.overflowAt M_PI
  norm_num

/-- Counterexample to C7 as stated: at latitude `1e308` the product `lat * M_PI`
overflows, the cosine of the latitude is NaN, and the distance from the point to
itself is NaN, not `0`. -/
theorem getDistanceD_self_counterexample :
    getDistanceD 1e308 0 1e308 0 = Dbl.nan ∧ getDistanceD 1e308 0 1e308 0 ≠ Dbl.fin 0 := by
  have h := getDistanceD_nan_of_overflow 1e308 0 1e308 0 overflow_1e308
  refine ⟨h, ?_⟩
  rw [h]
  intro hc
  cases hc

/-- C7 amended: for any point whose latitude has magnitude at most `10 ^ 300`, in
particular for every valid point, and any longitude, the distance from the point
to itself is exactly `0`. -/
theorem getDistanceD_self (lat lon : ℝ) (h : |lat| ≤ 10 ^ 300) :
    getDistanceD lat lon lat lon = Dbl.fin 0 := by
  have hz : (0 : ℝ) ≤ 10 ^ 300 := by positivity
  rw [getDistanceD_eq_fin lat lon lat lon h h (by rw [sub_self, abs_zero]; exact hz)
    (by rw [sub_self, abs_zero]; exact hz)]
  have hc : cosAngle (lat * M_PI / 180) (lat * M_PI / 180) ((lon - lon) * M_PI / 180) = 1 := by
    unfold cosAngle
    simp only [sub_self, zero_mul, zero_div, Real.cos_zero, mul_one]
    nlinarith [Real.sin_sq_add_cos_sq (lat * M_PI / 180)]
  rw [hc, Real.arccos_one, mul_zero]

/-- Witness of the amended C7: Unit_Bravo's position. -/
theorem getDistanceD_self_witness :
    getDistanceD 40.725 (-74.000) 40.725 (-74.000) = Dbl.fin 0 :=
  getDistanceD_self 40.725 (-74.000) (by
    rw [abs_of_pos (by norm_num)]
    norm_num)

end CrisisCtrl
